import Mathlib

/-!
Verification development for the guess-the-sentence game core: a shallow
embedding of the ScoreCalculator, SentenceManager and GameEngine components
(src/components/ScoreCalculator.ts, SentenceManager.ts, GameEngine.ts and
src/types/validation.ts), together with proofs of the stated properties.

Modelling conventions:
- strings that are iterated character by character (sentences, letters) are
  `List Char`; dates are opaque `String` values;
- JS `Set<string>` of single-character strings is `Finset Char`;
- JS numbers are exact: scores are `ℤ`, the streak multiplier is `ℚ`.
  All reachable multiplier arithmetic is of the form `10 * n * (3/2)^k` with
  `n ≤ 200` and `k ≤ 26` (at most 26 guesses per session), which binary64
  doubles represent exactly, so the rational model loses nothing;
- `Math.round` (round half toward positive infinity) is `fun q => ⌊q + 1/2⌋`;
- `toUpperCase` is modelled on the ASCII range (`upChar`); every call site in
  the source is guarded by the ASCII-only validators `isValidLetter` or
  `isValidSentence`, so the restriction is faithful;
- the external sentence source consumed by `loadDailySentence` is a function
  `String → Option (List Char)`: `none` covers every fetch / shape failure the
  code turns into a thrown error before mutating state, `some s` is a fetched
  sentence payload that is still subject to `isValidSentence`;
- methods that throw return `Except String`; a thrown error in the source
  leaves the object in the state it had at the throw site, which the embedding
  mirrors by returning the unchanged (or partially updated) state explicitly.
-/

set_option autoImplicit false

/-- ASCII letter test: model of the regex class [A-Za-z] (codes 65-90, 97-122)
used by validation.ts isValidLetter and isValidSentence. -/
def isAlphaAscii (c : Char) : Bool :=
  (65 ≤ c.toNat && c.toNat ≤ 90) || (97 ≤ c.toNat && c.toNat ≤ 122)

/-- ASCII uppercase test: model of the regex class [A-Z] (codes 65-90). -/
def isUpperAscii (c : Char) : Bool :=
  65 ≤ c.toNat && c.toNat ≤ 90

/-- Model of JS toUpperCase on one character, restricted to ASCII: lowercase
a-z (codes 97-122) maps down by 32, everything else is unchanged. -/
def upChar (c : Char) : Char :=
  if 97 ≤ c.toNat && c.toNat ≤ 122 then Char.ofNat (c.toNat - 32) else c

/-- ASCII part of the JS whitespace class (space, tab, LF, VT, FF, CR),
used by String.trim and the regex class in isValidSentence. -/
def isWsp (c : Char) : Bool :=
  c.toNat = 32 || c.toNat = 9 || c.toNat = 10 ||
    c.toNat = 11 || c.toNat = 12 || c.toNat = 13

/-- Model of JS String.prototype.trim: strip whitespace from both ends. -/
def trimChars (s : List Char) : List Char :=
  ((s.dropWhile isWsp).reverse.dropWhile isWsp).reverse

/-- Model of validation.ts isValidLetter: exactly one character matching
[A-Za-z]. -/
def isValidLetter (l : List Char) : Bool :=
  match l with
  | [c] => isAlphaAscii c
  | _ => false

/-- One character of the allowed class of validation.ts isValidSentence:
letters, digits, whitespace, and the punctuation with codes
33 34 39 40 41 44 45 46 63, i.e. the regex class [A-Za-z0-9\s\-.,!?(...)]
together with the two quote characters. -/
def isAllowedChar (c : Char) : Bool :=
  isAlphaAscii c || (48 ≤ c.toNat && c.toNat ≤ 57) || isWsp c ||
    c.toNat = 45 || c.toNat = 46 || c.toNat = 44 || c.toNat = 33 ||
    c.toNat = 63 || c.toNat = 39 || c.toNat = 34 || c.toNat = 40 || c.toNat = 41

/-- Model of validation.ts isValidSentence: the trimmed sentence has between
10 and 200 characters, contains at least one letter, and consists only of
allowed characters (the regex with + requires a nonempty all-allowed string,
which is equivalent given the length bound). -/
def isValidSentence (s : List Char) : Bool :=
  let t := trimChars s
  (10 ≤ t.length && t.length ≤ 200) && t.any isAlphaAscii && t.all isAllowedChar

/-- Model of JS Math.round: round half toward positive infinity. -/
def jsRound (q : ℚ) : ℤ := ⌊q + 1/2⌋

/-- Half-up rounding to the nearest integer, written from the spec wording
("standard half-up rounding to the nearest integer") for comparison with the
Math.round used by the code. -/
def roundHalfUp (q : ℚ) : ℤ := ⌊q + 1/2⌋

/-- Per-guess result record returned by ScoreCalculator.calculatePoints. -/
structure ScoreResult where
  pointsEarned : ℤ
  newTotal : ℤ
  multiplierUsed : ℚ
  letterInstances : ℕ
  isCorrect : Bool
deriving DecidableEq

/-- Private state of the ScoreCalculator class. -/
@[ext]
structure ScoreCalculator where
  currentScore : ℤ
  nextMultiplier : ℚ
  consecutiveCorrect : ℕ
deriving DecidableEq

namespace ScoreCalculator

/-- Field initializers of the ScoreCalculator class. -/
def new : ScoreCalculator :=
  { currentScore := 0, nextMultiplier := 1, consecutiveCorrect := 0 }

/-- Model of ScoreCalculator.resetStreak. -/
def resetStreak (s : ScoreCalculator) : ScoreCalculator :=
  { s with nextMultiplier := 1, consecutiveCorrect := 0 }

/-- Model of ScoreCalculator.calculatePoints; returns the updated state and
the ScoreResult. Constants from the class: basePointsPerLetter = 10,
incorrectGuessDeduction = 10, multiplierIncrement = 1.5. -/
def calculatePoints (s : ScoreCalculator) (letterInstances : ℕ)
    (isCorrect : Bool) : ScoreCalculator × ScoreResult :=
  if isCorrect then
    let multiplierUsed := s.nextMultiplier
    let pointsEarned := jsRound (10 * (letterInstances : ℚ) * multiplierUsed)
    let s1 := { s with consecutiveCorrect := s.consecutiveCorrect + 1,
                       nextMultiplier := s.nextMultiplier * (3/2) }
    let s2 := { s1 with currentScore := max 0 (s1.currentScore + pointsEarned) }
    (s2, { pointsEarned := pointsEarned, newTotal := s2.currentScore,
           multiplierUsed := multiplierUsed,
           letterInstances := letterInstances, isCorrect := true })
  else
    let pointsEarned : ℤ := -10
    let s1 := s.resetStreak
    let s2 := { s1 with currentScore := max 0 (s1.currentScore + pointsEarned) }
    (s2, { pointsEarned := pointsEarned, newTotal := s2.currentScore,
           multiplierUsed := 1,
           letterInstances := letterInstances, isCorrect := false })

/-- Model of ScoreCalculator.setScore. -/
def setScore (s : ScoreCalculator) (score : ℤ) : ScoreCalculator :=
  { s with currentScore := max 0 score }

/-- Model of ScoreCalculator.initializeState: every restored value is floored
to its minimum (0, 0, 1.0). -/
def initState (score : ℤ) (consecutiveCorrect : ℤ) (multiplier : ℚ) :
    ScoreCalculator :=
  { currentScore := max 0 score
    consecutiveCorrect := (max 0 consecutiveCorrect).toNat
    nextMultiplier := max 1 multiplier }

/-- Folding a list of correct guesses (with the given instance counts)
through calculatePoints; used to state the streak properties. -/
def applyCorrects (ls : List ℕ) (s : ScoreCalculator) : ScoreCalculator :=
  ls.foldl (fun t n => (t.calculatePoints n true).1) s

end ScoreCalculator

/-- Private state of the SentenceManager class. -/
@[ext]
structure SentenceManager where
  currentSentence : List Char
  revealedLetters : Finset Char
  normalizedSentence : List Char
deriving DecidableEq

/-- The external sentence source consumed by SentenceManager (the apiClient
collaborator): a date is mapped either to a fetched sentence payload or to a
failure. -/
def Source : Type := String → Option (List Char)

namespace SentenceManager

/-- Field initializers of the SentenceManager class; also the state produced
by SentenceManager.reset. -/
def new : SentenceManager :=
  { currentSentence := [], revealedLetters := ∅, normalizedSentence := [] }

/-- Model of SentenceManager.loadDailySentence: on a fetched payload that
passes isValidSentence, store the trimmed sentence, derive the uppercase
normalized sentence, clear revealedLetters, and return the stored sentence.
Every failure throws before any assignment, so the state is unchanged. -/
def loadDailySentence (source : Source) (date : String) (sm : SentenceManager) :
    SentenceManager × Except String (List Char) :=
  match source date with
  | none => (sm, .error "Invalid sentence response")
  | some s =>
    if isValidSentence s then
      let t := trimChars s
      ({ currentSentence := t, revealedLetters := ∅,
         normalizedSentence := t.map upChar }, .ok t)
    else (sm, .error "Received invalid sentence from API")

/-- Model of SentenceManager.revealLetter: requires a valid letter and a
loaded sentence, adds the normalized letter to revealedLetters
unconditionally, and returns the occurrence count in the normalized
sentence. -/
def revealLetter (sm : SentenceManager) (letter : List Char) :
    Except String (SentenceManager × ℕ) :=
  match letter with
  | [c] =>
    if !isAlphaAscii c then .error "Invalid letter provided"
    else if sm.currentSentence.isEmpty then .error "No sentence loaded"
    else
      let n := upChar c
      .ok ({ sm with revealedLetters := insert n sm.revealedLetters },
           sm.normalizedSentence.count n)
  | _ => .error "Invalid letter provided"

/-- Model of SentenceManager.isLetterInSentence: false (not an error) for
malformed input or when no sentence is loaded, otherwise a case-insensitive
membership test. -/
def isLetterInSentence (sm : SentenceManager) (letter : List Char) : Bool :=
  match letter with
  | [c] =>
    if !isAlphaAscii c then false
    else if sm.currentSentence.isEmpty then false
    else decide (upChar c ∈ sm.normalizedSentence)
  | _ => false

/-- Model of SentenceManager.getDisplaySentence: a letter whose uppercase
form is not revealed shows as an underscore, every other character is copied
through unchanged. -/
def getDisplaySentence (sm : SentenceManager) : List Char :=
  if sm.currentSentence.isEmpty then []
  else sm.currentSentence.map (fun c =>
    if isUpperAscii (upChar c) && !decide (upChar c ∈ sm.revealedLetters)
    then '_' else c)

/-- Model of SentenceManager.isComplete: false with no sentence loaded, else
every uppercase letter of the normalized sentence must be revealed. -/
def isComplete (sm : SentenceManager) : Bool :=
  if sm.currentSentence.isEmpty then false
  else sm.normalizedSentence.all (fun c =>
    !(isUpperAscii c) || decide (c ∈ sm.revealedLetters))

/-- Model of SentenceManager.getOriginalSentence. -/
def getOriginalSentence (sm : SentenceManager) : List Char :=
  sm.currentSentence

/-- Model of SentenceManager.getRevealedLetters (a defensive copy in JS; the
copy is the identity in a value model). -/
def getRevealedLetters (sm : SentenceManager) : Finset Char :=
  sm.revealedLetters

end SentenceManager

/-- The GameState snapshot record assembled by GameEngine.getGameState and
consumed by GameEngine.restoreGameState. -/
@[ext]
structure GameState where
  currentSentence : List Char
  revealedLetters : Finset Char
  guessedLetters : Finset Char
  score : ℤ
  streakMultiplier : ℚ
  consecutiveCorrect : ℤ
  isComplete : Bool
  gameDate : String
deriving DecidableEq

/-- The GuessResult record returned by GameEngine.processGuess. -/
structure GuessResult where
  letter : Char
  isCorrect : Bool
  letterInstances : ℕ
  scoreResult : ScoreResult
  gameComplete : Bool
  displaySentence : List Char
deriving DecidableEq

/-- Private state of the GameEngine class. -/
@[ext]
structure GameEngine where
  scoreCalculator : ScoreCalculator
  sentenceManager : SentenceManager
  guessedLetters : Finset Char
  gameDate : String
  isGameComplete : Bool
deriving DecidableEq

namespace GameEngine

/-- Field initializers of the GameEngine class (fresh engine). -/
def new : GameEngine :=
  { scoreCalculator := ScoreCalculator.new, sentenceManager := SentenceManager.new,
    guessedLetters := ∅, gameDate := "", isGameComplete := false }

/-- Model of GameEngine.processGuess: validation, terminal-state check and
duplicate check in source order (all before any mutation), then the guess is
recorded, the letter possibly revealed, the score updated, and the completion
flag recomputed. The inner revealLetter error branch is unreachable because
revealLetter is only invoked when isLetterInSentence returned true. -/
def processGuess (ge : GameEngine) (letter : List Char) :
    Except String (GameEngine × GuessResult) :=
  match letter with
  | [c] =>
    if !isAlphaAscii c then .error "Invalid letter provided"
    else if ge.isGameComplete then .error "Game is already complete"
    else
      let n := upChar c
      if n ∈ ge.guessedLetters then .error "Letter has already been guessed"
      else
        let guessed := insert n ge.guessedLetters
        let isCorrect := ge.sentenceManager.isLetterInSentence [n]
        match (if isCorrect then ge.sentenceManager.revealLetter [n]
               else .ok (ge.sentenceManager, 0)) with
        | .error e => .error e
        | .ok (sm, letterInstances) =>
          let r := ge.scoreCalculator.calculatePoints letterInstances isCorrect
          let complete := sm.isComplete
          .ok ({ scoreCalculator := r.1, sentenceManager := sm,
                 guessedLetters := guessed, gameDate := ge.gameDate,
                 isGameComplete := complete },
               { letter := n, isCorrect := isCorrect,
                 letterInstances := letterInstances, scoreResult := r.2,
                 gameComplete := complete,
                 displaySentence := sm.getDisplaySentence })
  | _ => .error "Invalid letter provided"

/-- Model of GameEngine.getGameState. -/
def getGameState (ge : GameEngine) : GameState :=
  { currentSentence := ge.sentenceManager.getOriginalSentence
    revealedLetters := ge.sentenceManager.getRevealedLetters
    guessedLetters := ge.guessedLetters
    score := ge.scoreCalculator.currentScore
    streakMultiplier := ge.scoreCalculator.nextMultiplier
    consecutiveCorrect := (ge.scoreCalculator.consecutiveCorrect : ℤ)
    isComplete := ge.isGameComplete
    gameDate := ge.gameDate }

/-- Model of GameEngine.getDisplaySentence. -/
def getDisplaySentence (ge : GameEngine) : List Char :=
  ge.sentenceManager.getDisplaySentence

/-- Model of GameEngine.initializeGame with the date already resolved (the
given date, or the current date when omitted): the date is set and every
component reset before the sentence load is awaited; a load failure leaves
the freshly reset state in place and propagates the error. The previous
engine state is discarded entirely. -/
def initGame (source : Source) (date : String) (_previous : GameEngine) :
    GameEngine × Except String (List Char) :=
  let ge1 : GameEngine :=
    { scoreCalculator := ScoreCalculator.initState 0 0 1,
      sentenceManager := SentenceManager.new,
      guessedLetters := ∅, gameDate := date, isGameComplete := false }
  match SentenceManager.loadDailySentence source date ge1.sentenceManager with
  | (sm, .error e) => ({ ge1 with sentenceManager := sm }, .error e)
  | (sm, .ok s) => ({ ge1 with sentenceManager := sm }, .ok s)

/-- Model of GameEngine.restoreGameState: set the date, reload the sentence
for that date, replay the snapshot revealedLetters through the reveal path
(skipping letters not present in the sentence), restore the score calculator
through its floor-protected initializer, and copy guessedLetters and the
completion flag from the snapshot. The source for-loop over the revealed set
performs order-independent set insertions (each iteration inserts the
normalized letter and discards the returned count), so it is modelled as the
union with the image of the filtered set. -/
def restoreGameState (source : Source) (gs : GameState) (ge : GameEngine) :
    GameEngine × Except String Unit :=
  match SentenceManager.loadDailySentence source gs.gameDate ge.sentenceManager with
  | (sm, .error e) =>
    ({ ge with gameDate := gs.gameDate, sentenceManager := sm }, .error e)
  | (sm, .ok _) =>
    let sm1 := { sm with revealedLetters := sm.revealedLetters ∪
      (gs.revealedLetters.filter (fun c => sm.isLetterInSentence [c])).image upChar }
    ({ scoreCalculator :=
         ScoreCalculator.initState gs.score gs.consecutiveCorrect gs.streakMultiplier,
       sentenceManager := sm1, guessedLetters := gs.guessedLetters,
       gameDate := gs.gameDate, isGameComplete := gs.isComplete }, .ok ())

/-- One guess as seen by a driver that catches thrown errors: a failed guess
leaves the engine unchanged. -/
def stepGuess (ge : GameEngine) (letter : List Char) : GameEngine :=
  match ge.processGuess letter with
  | .ok (ge1, _) => ge1
  | .error _ => ge

/-- A whole sequence of guesses. -/
def runGuesses (letters : List (List Char)) (ge : GameEngine) : GameEngine :=
  letters.foldl stepGuess ge

end GameEngine

/-- Invariant satisfied by every reachable engine state: the clamped score is
nonnegative, the pending multiplier is at least 1, every revealed letter is an
uppercase letter occurring in the normalized sentence, the normalized sentence
is the uppercase image of the current sentence, and the revealed letters form
a subset of the guessed letters. -/
structure EngineInv (ge : GameEngine) : Prop where
  score_nonneg : 0 ≤ ge.scoreCalculator.currentScore
  mult_ge_one : 1 ≤ ge.scoreCalculator.nextMultiplier
  revealed_upper : ∀ c ∈ ge.sentenceManager.revealedLetters, isUpperAscii c = true
  revealed_mem : ∀ c ∈ ge.sentenceManager.revealedLetters,
    c ∈ ge.sentenceManager.normalizedSentence
  norm_eq : ge.sentenceManager.normalizedSentence
    = ge.sentenceManager.currentSentence.map upChar
  sub_guessed : ge.sentenceManager.revealedLetters ⊆ ge.guessedLetters

/-! ### Character helper lemmas -/

theorem char_toNat_ofNat {n : ℕ} (h : n < 55296) : (Char.ofNat n).toNat = n := by
  have hv : n.isValidChar := by
    unfold Nat.isValidChar
    omega
  simp [Char.ofNat, hv]
  rfl

theorem upChar_toNat_of_lower {c : Char} (h1 : 97 ≤ c.toNat) (h2 : c.toNat ≤ 122) :
    (upChar c).toNat = c.toNat - 32 := by
  have hc : (97 ≤ c.toNat && c.toNat ≤ 122) = true := by simp [h1, h2]
  rw [upChar, if_pos hc]
  exact char_toNat_ofNat (by omega)

theorem upChar_eq_self {c : Char} (h : ¬(97 ≤ c.toNat ∧ c.toNat ≤ 122)) :
    upChar c = c := by
  have hc : (97 ≤ c.toNat && c.toNat ≤ 122) = false := by
    simp only [Bool.and_eq_false_iff, decide_eq_false_iff_not]
    omega
  rw [upChar, hc]
  rfl

theorem isUpperAscii_upChar (c : Char) : isUpperAscii (upChar c) = isAlphaAscii c := by
  by_cases h : 97 ≤ c.toNat ∧ c.toNat ≤ 122
  · rw [Bool.eq_iff_iff]
    simp only [isUpperAscii, isAlphaAscii, upChar_toNat_of_lower h.1 h.2,
      Bool.and_eq_true, Bool.or_eq_true, decide_eq_true_eq]
    omega
  · rw [upChar_eq_self h, Bool.eq_iff_iff]
    simp only [isUpperAscii, isAlphaAscii, Bool.and_eq_true, Bool.or_eq_true,
      decide_eq_true_eq]
    omega

theorem upChar_of_upper {c : Char} (h : isUpperAscii c = true) : upChar c = c := by
  apply upChar_eq_self
  simp only [isUpperAscii, Bool.and_eq_true, decide_eq_true_eq] at h
  omega

theorem upChar_idem (c : Char) : upChar (upChar c) = upChar c := by
  by_cases h : isAlphaAscii c = true
  · exact upChar_of_upper ((isUpperAscii_upChar c).trans h)
  · have h2 : ¬(97 ≤ c.toNat ∧ c.toNat ≤ 122) := by
      simp only [isAlphaAscii, Bool.or_eq_true, Bool.and_eq_true,
        decide_eq_true_eq] at h
      omega
    rw [upChar_eq_self h2, upChar_eq_self h2]

theorem isAlphaAscii_of_upper {c : Char} (h : isUpperAscii c = true) :
    isAlphaAscii c = true := by
  simp only [isUpperAscii, Bool.and_eq_true, decide_eq_true_eq] at h
  simp only [isAlphaAscii, Bool.or_eq_true, Bool.and_eq_true, decide_eq_true_eq]
  omega

/-! ### ScoreCalculator lemmas -/

theorem applyCorrects_nextMultiplier (ls : List ℕ) (s : ScoreCalculator) :
    (ScoreCalculator.applyCorrects ls s).nextMultiplier
      = s.nextMultiplier * (3/2) ^ ls.length := by
  induction ls generalizing s with
  | nil => simp [ScoreCalculator.applyCorrects]
  | cons n tl ih =>
    simp only [ScoreCalculator.applyCorrects, List.foldl_cons, List.length_cons]
    rw [show List.foldl (fun t n => (t.calculatePoints n true).1) ((s.calculatePoints n true).1) tl
        = ScoreCalculator.applyCorrects tl ((s.calculatePoints n true).1) from rfl, ih]
    simp only [ScoreCalculator.calculatePoints, if_pos]
    ring

/-- C1: after exactly n consecutive correct guesses starting from a state
whose pending multiplier is 1 (game start or just after a streak reset), the
multiplierUsed reported by calculatePoints on the next correct guess is
(3/2) to the n, and the first correct guess reports multiplier exactly 1. -/
theorem streak_multiplier_power (s : ScoreCalculator) (ls : List ℕ) (m : ℕ)
    (h : s.nextMultiplier = 1) :
    ((ScoreCalculator.applyCorrects ls s).calculatePoints m true).2.multiplierUsed
      = (3/2 : ℚ) ^ ls.length
    ∧ (s.calculatePoints m true).2.multiplierUsed = 1 := by
  constructor
  · simp [ScoreCalculator.calculatePoints, applyCorrects_nextMultiplier, h]
  · simp [ScoreCalculator.calculatePoints, h]

theorem streak_multiplier_power_witness :
    ((ScoreCalculator.applyCorrects [1, 1] ScoreCalculator.new).calculatePoints
        2 true).2.multiplierUsed = (3/2 : ℚ) ^ ([1, 1] : List ℕ).length
    ∧ (ScoreCalculator.new.calculatePoints 2 true).2.multiplierUsed = 1 :=
  streak_multiplier_power ScoreCalculator.new [1, 1] 2 rfl

/-- C7: pointsEarned on a correct guess is 10 times the instance count times
the reported multiplier, rounded half-up to the nearest integer; roundHalfUp
is within one half of its argument and rounds exact halves upward; and a 9/4
multiplier on a single-instance correct guess yields exactly 23 points. -/
theorem points_rounded_half_up :
    (∀ (s : ScoreCalculator) (n : ℕ),
        ((s.calculatePoints n true).2).pointsEarned
          = roundHalfUp (10 * (n : ℚ) * ((s.calculatePoints n true).2).multiplierUsed))
    ∧ (∀ q : ℚ, |(roundHalfUp q : ℚ) - q| ≤ 1/2)
    ∧ (∀ (z : ℤ) (q : ℚ), q - z = 1/2 → roundHalfUp q = z + 1)
    ∧ (({ currentScore := 0, nextMultiplier := 9/4, consecutiveCorrect := 2 } :
          ScoreCalculator).calculatePoints 1 true).2.pointsEarned = 23 := by
  refine ⟨?_, ?_, ?_, ?_⟩
  · intro s n
    simp [ScoreCalculator.calculatePoints, jsRound, roundHalfUp]
  · intro q
    have h1 := Int.floor_le (q + 1/2)
    have h2 := Int.lt_floor_add_one (q + 1/2)
    rw [roundHalfUp, abs_le]
    constructor <;> linarith
  · intro z q h
    have hq : q = (z : ℚ) + 1/2 := by linarith
    rw [roundHalfUp, hq, show ((z : ℚ) + 1/2 + 1/2) = ((z + 1 : ℤ) : ℚ) by
      push_cast; ring, Int.floor_intCast]
  · simp only [ScoreCalculator.calculatePoints, if_pos, jsRound]
    rw [show (10 * ((1:ℕ) : ℚ) * (9/4) + 1/2 : ℚ) = ((23 : ℤ) : ℚ) by norm_num,
      Int.floor_intCast]

theorem points_rounded_half_up_witness : roundHalfUp ((1 : ℚ)/2) = 0 + 1 :=
  points_rounded_half_up.2.2.1 0 (1/2) (by simp)

/-- C8: a correct guess with zero letter instances awards 0 points and leaves
the total unchanged, yet still increments consecutiveCorrect and multiplies
the pending multiplier by 3/2. -/
theorem zero_instance_correct_guess (s : ScoreCalculator)
    (h : 0 ≤ s.currentScore) :
    ((s.calculatePoints 0 true).2).pointsEarned = 0
    ∧ ((s.calculatePoints 0 true).1).currentScore = s.currentScore
    ∧ ((s.calculatePoints 0 true).1).consecutiveCorrect = s.consecutiveCorrect + 1
    ∧ ((s.calculatePoints 0 true).1).nextMultiplier = s.nextMultiplier * (3/2) := by
  have hz : jsRound 0 = 0 := by
    rw [jsRound, zero_add, Int.floor_eq_zero_iff]
    constructor <;> norm_num
  refine ⟨?_, ?_, ?_, ?_⟩ <;>
    simp [ScoreCalculator.calculatePoints, hz, max_eq_right h]

theorem zero_instance_correct_guess_witness :
    ((ScoreCalculator.new.calculatePoints 0 true).2).pointsEarned = 0
    ∧ ((ScoreCalculator.new.calculatePoints 0 true).1).currentScore
        = ScoreCalculator.new.currentScore
    ∧ ((ScoreCalculator.new.calculatePoints 0 true).1).consecutiveCorrect
        = ScoreCalculator.new.consecutiveCorrect + 1
    ∧ ((ScoreCalculator.new.calculatePoints 0 true).1).nextMultiplier
        = ScoreCalculator.new.nextMultiplier * (3/2) :=
  zero_instance_correct_guess ScoreCalculator.new (le_refl 0)

/-! ### Engine invariant machinery -/

theorem calculatePoints_score_nonneg (s : ScoreCalculator) (n : ℕ) (b : Bool) :
    0 ≤ ((s.calculatePoints n b).1).currentScore := by
  cases b <;> simp [ScoreCalculator.calculatePoints, ScoreCalculator.resetStreak]

theorem calculatePoints_mult_ge_one {s : ScoreCalculator}
    (hm : 1 ≤ s.nextMultiplier) (n : ℕ) (b : Bool) :
    1 ≤ ((s.calculatePoints n b).1).nextMultiplier := by
  cases b <;> simp [ScoreCalculator.calculatePoints, ScoreCalculator.resetStreak]
  linarith [mul_le_mul_of_nonneg_right hm (by norm_num : (0:ℚ) ≤ 3/2)]

theorem stepGuess_preserves {ge : GameEngine} (hI : EngineInv ge) (l : List Char) :
    EngineInv (ge.stepGuess l)
    ∧ (ge.stepGuess l).sentenceManager.currentSentence
        = ge.sentenceManager.currentSentence
    ∧ (ge.stepGuess l).sentenceManager.normalizedSentence
        = ge.sentenceManager.normalizedSentence
    ∧ (ge.stepGuess l).gameDate = ge.gameDate := by
  match l with
  | [] => simp [GameEngine.stepGuess, GameEngine.processGuess, hI]
  | c :: c2 :: tl => simp [GameEngine.stepGuess, GameEngine.processGuess, hI]
  | [c] =>
    rw [GameEngine.stepGuess, GameEngine.processGuess]
    by_cases ha : isAlphaAscii c = true
    case neg =>
      rw [Bool.not_eq_true] at ha
      simp [ha, hI]
    rw [if_neg (by simp [ha])]
    by_cases hcomp : ge.isGameComplete
    case pos => simp [hcomp, hI]
    rw [if_neg (by simp [hcomp])]
    by_cases hdup : upChar c ∈ ge.guessedLetters
    case pos => simp [hdup, hI]
    rw [if_neg hdup]
    have ha2 : isAlphaAscii (upChar c) = true :=
      isAlphaAscii_of_upper ((isUpperAscii_upChar c).trans ha)
    by_cases hcor : ge.sentenceManager.isLetterInSentence [upChar c] = true
    · have hemp : ge.sentenceManager.currentSentence.isEmpty = false := by
        by_contra hh
        rw [Bool.not_eq_false] at hh
        simp [SentenceManager.isLetterInSentence, hh, ha2] at hcor
      have hmem : upChar c ∈ ge.sentenceManager.normalizedSentence := by
        have h2 := hcor
        simp [SentenceManager.isLetterInSentence, ha2, hemp, upChar_idem] at h2
        exact h2
      simp only [hcor, if_true, SentenceManager.revealLetter, ha2,
        Bool.not_true, Bool.false_eq_true, if_false, hemp, upChar_idem]
      refine ⟨?_, by trivial, by trivial, by trivial⟩
      constructor
      · exact calculatePoints_score_nonneg _ _ _
      · exact calculatePoints_mult_ge_one hI.mult_ge_one _ _
      · intro x hx
        rcases Finset.mem_insert.mp hx with h | h
        · subst h
          exact (isUpperAscii_upChar c).trans ha
        · exact hI.revealed_upper x h
      · intro x hx
        rcases Finset.mem_insert.mp hx with h | h
        · subst h
          exact hmem
        · exact hI.revealed_mem x h
      · exact hI.norm_eq
      · exact Finset.insert_subset_insert _ hI.sub_guessed
    · rw [Bool.not_eq_true] at hcor
      simp only [hcor, Bool.false_eq_true, if_false]
      refine ⟨?_, by trivial, by trivial, by trivial⟩
      constructor
      · exact calculatePoints_score_nonneg _ _ _
      · exact calculatePoints_mult_ge_one hI.mult_ge_one _ _
      · exact hI.revealed_upper
      · exact hI.revealed_mem
      · exact hI.norm_eq
      · exact hI.sub_guessed.trans (Finset.subset_insert _ _)

theorem runGuesses_preserves {ge : GameEngine} (hI : EngineInv ge)
    (gs : List (List Char)) :
    EngineInv (GameEngine.runGuesses gs ge)
    ∧ (GameEngine.runGuesses gs ge).sentenceManager.currentSentence
        = ge.sentenceManager.currentSentence
    ∧ (GameEngine.runGuesses gs ge).sentenceManager.normalizedSentence
        = ge.sentenceManager.normalizedSentence
    ∧ (GameEngine.runGuesses gs ge).gameDate = ge.gameDate := by
  induction gs generalizing ge with
  | nil => exact ⟨hI, rfl, rfl, rfl⟩
  | cons l tl ih =>
    obtain ⟨hI1, hc1, hn1, hd1⟩ := stepGuess_preserves hI l
    obtain ⟨hI2, hc2, hn2, hd2⟩ := ih hI1
    exact ⟨hI2, hc2.trans hc1, hn2.trans hn1, hd2.trans hd1⟩


theorem loadDailySentence_eq_none {source : Source} {date : String}
    (sm : SentenceManager) (h : source date = none) :
    SentenceManager.loadDailySentence source date sm
      = (sm, .error "Invalid sentence response") := by
  unfold SentenceManager.loadDailySentence
  rw [h]

theorem loadDailySentence_eq_invalid {source : Source} {date : String}
    {s : List Char} (sm : SentenceManager) (h : source date = some s)
    (hv : isValidSentence s = false) :
    SentenceManager.loadDailySentence source date sm
      = (sm, .error "Received invalid sentence from API") := by
  unfold SentenceManager.loadDailySentence
  rw [h]
  simp [hv]

theorem loadDailySentence_eq_valid {source : Source} {date : String}
    {s : List Char} (sm : SentenceManager) (h : source date = some s)
    (hv : isValidSentence s = true) :
    SentenceManager.loadDailySentence source date sm
      = ({ currentSentence := trimChars s, revealedLetters := ∅,
           normalizedSentence := (trimChars s).map upChar }, .ok (trimChars s)) := by
  unfold SentenceManager.loadDailySentence
  rw [h]
  simp [hv]

theorem isValidSentence_length {s : List Char} (hv : isValidSentence s = true) :
    10 ≤ (trimChars s).length := by
  unfold isValidSentence at hv
  simp only [Bool.and_eq_true, decide_eq_true_eq] at hv
  exact hv.1.1.1

theorem engineInv_reset (sc : ScoreCalculator) (hs : 0 ≤ sc.currentScore)
    (hm : 1 ≤ sc.nextMultiplier) (cur : List Char) (g : Finset Char)
    (d : String) (b : Bool) :
    EngineInv { scoreCalculator := sc,
                sentenceManager := { currentSentence := cur,
                                     revealedLetters := ∅,
                                     normalizedSentence := cur.map upChar },
                guessedLetters := g, gameDate := d, isGameComplete := b } := by
  refine ⟨hs, hm, ?_, ?_, rfl, ?_⟩ <;> intro c hc <;> simp at hc

theorem initState_score_nonneg (a b : ℤ) (m : ℚ) :
    0 ≤ (ScoreCalculator.initState a b m).currentScore :=
  le_max_left 0 a

theorem initState_mult_ge_one (a b : ℤ) (m : ℚ) :
    1 ≤ (ScoreCalculator.initState a b m).nextMultiplier :=
  le_max_left 1 m

theorem initGame_inv (source : Source) (date : String) (ge0 : GameEngine) :
    EngineInv (GameEngine.initGame source date ge0).1 := by
  simp only [GameEngine.initGame]
  cases hsd : source date with
  | none =>
    rw [show SentenceManager.loadDailySentence source date SentenceManager.new
          = (SentenceManager.new, .error "Invalid sentence response") from
        loadDailySentence_eq_none _ hsd]
    exact engineInv_reset _ (initState_score_nonneg 0 0 1)
      (initState_mult_ge_one 0 0 1) [] ∅ date false
  | some s =>
    by_cases hv : isValidSentence s = true
    · rw [show SentenceManager.loadDailySentence source date SentenceManager.new
            = ({ currentSentence := trimChars s, revealedLetters := ∅,
                 normalizedSentence := (trimChars s).map upChar }, .ok (trimChars s)) from
          loadDailySentence_eq_valid _ hsd hv]
      exact engineInv_reset _ (initState_score_nonneg 0 0 1)
        (initState_mult_ge_one 0 0 1) (trimChars s) ∅ date false
    · rw [Bool.not_eq_true] at hv
      rw [show SentenceManager.loadDailySentence source date SentenceManager.new
            = (SentenceManager.new, .error "Received invalid sentence from API") from
          loadDailySentence_eq_invalid _ hsd hv]
      exact engineInv_reset _ (initState_score_nonneg 0 0 1)
        (initState_mult_ge_one 0 0 1) [] ∅ date false

/-- C2: after every call to calculatePoints the stored total is clamped to be
nonnegative, hence the running total is nonnegative after every processed
guess of any engine session; the clamp is not applied to pointsEarned itself,
which is always -10 on an incorrect guess; in particular an incorrect guess
at score 5 reports pointsEarned -10 and newTotal 0. -/
theorem score_clamped_nonneg :
    (∀ (s : ScoreCalculator) (n : ℕ) (b : Bool),
        0 ≤ ((s.calculatePoints n b).1).currentScore)
    ∧ (∀ (s : ScoreCalculator) (n : ℕ),
        ((s.calculatePoints n false).2).pointsEarned = -10)
    ∧ (∀ (source : Source) (date : String) (ge0 : GameEngine)
        (gs : List (List Char)),
        0 ≤ (GameEngine.runGuesses gs
          (GameEngine.initGame source date ge0).1).scoreCalculator.currentScore)
    ∧ (({ currentScore := 5, nextMultiplier := 1, consecutiveCorrect := 0 } :
          ScoreCalculator).calculatePoints 0 false).2.pointsEarned = -10
    ∧ (({ currentScore := 5, nextMultiplier := 1, consecutiveCorrect := 0 } :
          ScoreCalculator).calculatePoints 0 false).2.newTotal = 0 := by
  refine ⟨calculatePoints_score_nonneg, ?_, ?_, ?_, ?_⟩
  · intro s n
    simp [ScoreCalculator.calculatePoints, ScoreCalculator.resetStreak]
  · intro source date ge0 gs
    exact (runGuesses_preserves (initGame_inv source date ge0) gs).1.score_nonneg
  · decide
  · decide

/-- C5: processGuess rejects malformed input with the invalid-input error,
rejects any guess once the completion flag is set with the terminal-state
error, and rejects an already guessed letter with the duplicate-guess error;
in each case the engine state observed by a caller that catches the error is
exactly the state before the call. -/
theorem process_guess_error_cases (ge : GameEngine) (l : List Char) :
    (isValidLetter l = false →
      ge.processGuess l = .error "Invalid letter provided" ∧ ge.stepGuess l = ge)
    ∧ (isValidLetter l = true → ge.isGameComplete = true →
      ge.processGuess l = .error "Game is already complete" ∧ ge.stepGuess l = ge)
    ∧ (∀ c : Char, l = [c] → isAlphaAscii c = true → ge.isGameComplete = false →
      upChar c ∈ ge.guessedLetters →
      ge.processGuess l = .error "Letter has already been guessed"
        ∧ ge.stepGuess l = ge) := by
  refine ⟨?_, ?_, ?_⟩
  · intro hv
    match l with
    | [] => constructor <;> simp [GameEngine.processGuess, GameEngine.stepGuess]
    | [c] =>
      rw [isValidLetter] at hv
      constructor <;> simp [GameEngine.processGuess, GameEngine.stepGuess, hv]
    | c :: c2 :: tl =>
      constructor <;> simp [GameEngine.processGuess, GameEngine.stepGuess]
  · intro hv hcomp
    match l with
    | [] => simp [isValidLetter] at hv
    | [c] =>
      rw [isValidLetter] at hv
      constructor <;> simp [GameEngine.processGuess, GameEngine.stepGuess, hv, hcomp]
    | c :: c2 :: tl => simp [isValidLetter] at hv
  · rintro c rfl hc hcomp hdup
    constructor <;>
      simp [GameEngine.processGuess, GameEngine.stepGuess, hc, hcomp, hdup]

theorem process_guess_error_cases_witness :
    (GameEngine.new.processGuess [Char.ofNat 49] = .error "Invalid letter provided"
      ∧ GameEngine.new.stepGuess [Char.ofNat 49] = GameEngine.new)
    ∧ (({ GameEngine.new with isGameComplete := true } : GameEngine).processGuess [Char.ofNat 65]
          = .error "Game is already complete"
      ∧ ({ GameEngine.new with isGameComplete := true } : GameEngine).stepGuess [Char.ofNat 65]
          = { GameEngine.new with isGameComplete := true })
    ∧ (({ GameEngine.new with guessedLetters := {Char.ofNat 65} } : GameEngine).processGuess [Char.ofNat 97]
          = .error "Letter has already been guessed"
      ∧ ({ GameEngine.new with guessedLetters := {Char.ofNat 65} } : GameEngine).stepGuess [Char.ofNat 97]
          = { GameEngine.new with guessedLetters := {Char.ofNat 65} }) :=
  ⟨(process_guess_error_cases GameEngine.new [Char.ofNat 49]).1 (by decide),
   (process_guess_error_cases { GameEngine.new with isGameComplete := true }
      [Char.ofNat 65]).2.1 (by decide) rfl,
   (process_guess_error_cases { GameEngine.new with guessedLetters := {Char.ofNat 65} }
      [Char.ofNat 97]).2.2 (Char.ofNat 97) rfl (by decide) rfl (by decide)⟩

/-- C6: after any sequence of guesses on an initialized engine, the revealed
letters of the sentence manager form a subset of the engine guessed
letters. -/
theorem revealed_subset_guessed (source : Source) (date : String)
    (ge0 : GameEngine) (gs : List (List Char)) :
    (GameEngine.runGuesses gs
        (GameEngine.initGame source date ge0).1).sentenceManager.revealedLetters
      ⊆ (GameEngine.runGuesses gs
        (GameEngine.initGame source date ge0).1).guessedLetters :=
  (runGuesses_preserves (initGame_inv source date ge0) gs).1.sub_guessed

/-- C9: restoreGameState never reads the currentSentence field of the
snapshot: restoring two snapshots that differ only in that field produces
identical results, the session sentence being whatever the source returns
for the snapshot date. -/
theorem restore_ignores_saved_sentence (source : Source) (ge : GameEngine)
    (gs : GameState) (cs1 cs2 : List Char) :
    GameEngine.restoreGameState source { gs with currentSentence := cs1 } ge
      = GameEngine.restoreGameState source { gs with currentSentence := cs2 } ge :=
  rfl

/-- C10: initializeGame clears all state and sets the new date before the
sentence load is awaited: a load failure leaves the engine in the freshly
reset, sentence-less state carrying the new date, and the result never
depends on the previous engine state. -/
theorem init_game_discards_previous (source : Source) (date : String)
    (ge ge0 : GameEngine) :
    (∀ e : String, (GameEngine.initGame source date ge).2 = .error e →
      (GameEngine.initGame source date ge).1
        = { scoreCalculator := ScoreCalculator.initState 0 0 1,
            sentenceManager := SentenceManager.new, guessedLetters := ∅,
            gameDate := date, isGameComplete := false })
    ∧ GameEngine.initGame source date ge = GameEngine.initGame source date ge0 := by
  refine ⟨?_, rfl⟩
  intro e h
  simp only [GameEngine.initGame] at h ⊢
  cases hsd : source date with
  | none =>
    rw [loadDailySentence_eq_none SentenceManager.new hsd]
  | some s =>
    by_cases hv : isValidSentence s = true
    · rw [loadDailySentence_eq_valid SentenceManager.new hsd hv] at h
      simp at h
    · rw [Bool.not_eq_true] at hv
      rw [loadDailySentence_eq_invalid SentenceManager.new hsd hv]

theorem init_game_discards_previous_witness :
    (GameEngine.initGame (fun _ => none) "2024-01-01"
        { GameEngine.new with gameDate := "old" }).1
      = { scoreCalculator := ScoreCalculator.initState 0 0 1,
          sentenceManager := SentenceManager.new, guessedLetters := ∅,
          gameDate := "2024-01-01", isGameComplete := false }
    ∧ GameEngine.initGame (fun _ => none) "2024-01-01"
        { GameEngine.new with gameDate := "old" }
      = GameEngine.initGame (fun _ => none) "2024-01-01" GameEngine.new :=
  ⟨(init_game_discards_previous (fun _ => none) "2024-01-01"
      { GameEngine.new with gameDate := "old" } GameEngine.new).1
      "Invalid sentence response" rfl,
   (init_game_discards_previous (fun _ => none) "2024-01-01"
      { GameEngine.new with gameDate := "old" } GameEngine.new).2⟩

/-- C4: getDisplaySentence returns a string of exactly the length of the
current sentence in which every alphabetic character whose uppercase form is
not revealed is replaced by an underscore and every other position is copied
through unchanged in its original case. -/
theorem display_sentence_masks (sm : SentenceManager) :
    (sm.getDisplaySentence).length = sm.currentSentence.length
    ∧ ∀ (i : ℕ) (c : Char), sm.currentSentence[i]? = some c →
        (sm.getDisplaySentence)[i]?
          = some (if isAlphaAscii c = true ∧ upChar c ∉ sm.revealedLetters
                  then '_' else c) := by
  unfold SentenceManager.getDisplaySentence
  by_cases he : sm.currentSentence.isEmpty
  · rw [if_pos he]
    have h0 : sm.currentSentence = [] := by simpa using he
    simp [h0]
  · rw [if_neg he]
    refine ⟨by simp, ?_⟩
    intro i c hc
    rw [List.getElem?_map, hc, Option.map_some']
    congr 1
    by_cases ha : isAlphaAscii c = true
    · by_cases hm : upChar c ∈ sm.revealedLetters
      · simp [ha, hm, isUpperAscii_upChar]
      · simp [ha, hm, isUpperAscii_upChar]
    · have ha2 : isAlphaAscii c = false := by simpa using ha
      simp [ha2, isUpperAscii_upChar, ha]

theorem display_sentence_masks_witness :
    (({ currentSentence := ['H', 'i', '!'], revealedLetters := {'H'},
        normalizedSentence := ['H', 'I', '!'] } :
      SentenceManager).getDisplaySentence)[1]?
      = some (if isAlphaAscii 'i' = true ∧ upChar 'i' ∉ ({'H'} : Finset Char)
              then '_' else 'i') :=
  (display_sentence_masks _).2 1 'i' rfl

theorem initGame_ok {source : Source} {date : String} {ge0 : GameEngine}
    {cs : List Char} (h : (GameEngine.initGame source date ge0).2 = .ok cs) :
    SentenceManager.loadDailySentence source date SentenceManager.new
      = ({ currentSentence := cs, revealedLetters := ∅,
           normalizedSentence := cs.map upChar }, .ok cs)
    ∧ (GameEngine.initGame source date ge0).1
      = { scoreCalculator := ScoreCalculator.initState 0 0 1,
          sentenceManager := { currentSentence := cs, revealedLetters := ∅,
                               normalizedSentence := cs.map upChar },
          guessedLetters := ∅, gameDate := date, isGameComplete := false }
    ∧ 10 ≤ cs.length := by
  simp only [GameEngine.initGame] at h ⊢
  cases hsd : source date with
  | none =>
    rw [loadDailySentence_eq_none SentenceManager.new hsd] at h
    simp at h
  | some s =>
    by_cases hv : isValidSentence s = true
    · rw [loadDailySentence_eq_valid SentenceManager.new hsd hv] at h
      have hcs : trimChars s = cs := by simpa using h
      subst hcs
      refine ⟨loadDailySentence_eq_valid SentenceManager.new hsd hv, ?_,
        isValidSentence_length hv⟩
      rw [loadDailySentence_eq_valid SentenceManager.new hsd hv]
    · rw [Bool.not_eq_true] at hv
      rw [loadDailySentence_eq_invalid SentenceManager.new hsd hv] at h
      simp at h

/-- C3: round trip: capture getGameState after any sequence of guesses on a
successfully initialized engine, feed it to a fresh engine through
restoreGameState against the same sentence source (which therefore returns
the same sentence for the snapshot date), and the restore succeeds and
getGameState yields an equivalent state: same score, same streakMultiplier,
same revealedLetters and guessedLetters sets, same isComplete flag, and the
same display sentence. -/
theorem game_state_roundtrip (source : Source) (date : String)
    (ge0 : GameEngine) (gs : List (List Char)) (cs : List Char)
    (h : (GameEngine.initGame source date ge0).2 = .ok cs) :
    (GameEngine.restoreGameState source
        (GameEngine.getGameState
          (GameEngine.runGuesses gs (GameEngine.initGame source date ge0).1))
        GameEngine.new).2 = .ok ()
    ∧ GameEngine.getGameState
        (GameEngine.restoreGameState source
          (GameEngine.getGameState
            (GameEngine.runGuesses gs (GameEngine.initGame source date ge0).1))
          GameEngine.new).1
      = GameEngine.getGameState
          (GameEngine.runGuesses gs (GameEngine.initGame source date ge0).1)
    ∧ GameEngine.getDisplaySentence
        (GameEngine.restoreGameState source
          (GameEngine.getGameState
            (GameEngine.runGuesses gs (GameEngine.initGame source date ge0).1))
          GameEngine.new).1
      = GameEngine.getDisplaySentence
          (GameEngine.runGuesses gs (GameEngine.initGame source date ge0).1) := by
  obtain ⟨hload, hinit1, hlen⟩ := initGame_ok h
  obtain ⟨hI, hcur0, hnorm0, hdate0⟩ :=
    runGuesses_preserves (initGame_inv source date ge0) gs
  set ge1 := GameEngine.runGuesses gs (GameEngine.initGame source date ge0).1
    with hge1
  have hcur : ge1.sentenceManager.currentSentence = cs := by
    rw [hcur0, hinit1]
  have hnorm : ge1.sentenceManager.normalizedSentence = cs.map upChar := by
    rw [hnorm0, hinit1]
  have hdate : ge1.gameDate = date := by
    rw [hdate0, hinit1]
  have hne : cs.isEmpty = false := by
    cases cs with
    | nil => simp at hlen
    | cons a t => rfl
  have hfix : ∀ c ∈ ge1.sentenceManager.revealedLetters, upChar c = c :=
    fun c hc => upChar_of_upper (hI.revealed_upper c hc)
  have hmain : GameEngine.restoreGameState source (GameEngine.getGameState ge1)
      GameEngine.new = (ge1, .ok ()) := by
    simp only [GameEngine.restoreGameState, GameEngine.getGameState,
      SentenceManager.getOriginalSentence, SentenceManager.getRevealedLetters,
      GameEngine.new]
    rw [hdate, hload]
    simp only [Prod.mk.injEq]
    refine ⟨?_, trivial⟩
    refine GameEngine.ext ?_ ?_ ?_ ?_ ?_
    · refine ScoreCalculator.ext ?_ ?_ ?_
      · simpa [ScoreCalculator.initState] using max_eq_right hI.score_nonneg
      · simpa [ScoreCalculator.initState] using max_eq_right hI.mult_ge_one
      · simp only [ScoreCalculator.initState]
        omega
    · refine SentenceManager.ext ?_ ?_ ?_
      · exact hcur.symm
      · show ∅ ∪ (ge1.sentenceManager.revealedLetters.filter _).image upChar
          = ge1.sentenceManager.revealedLetters
        rw [Finset.empty_union]
        have hfil : ge1.sentenceManager.revealedLetters.filter
            (fun c => (SentenceManager.isLetterInSentence
              { currentSentence := cs, revealedLetters := ∅,
                normalizedSentence := cs.map upChar } [c] : Bool))
            = ge1.sentenceManager.revealedLetters := by
          apply Finset.filter_true_of_mem
          intro c hc
          have hup := hI.revealed_upper c hc
          have halpha := isAlphaAscii_of_upper hup
          have hmem : c ∈ cs.map upChar := by
            rw [← hnorm]
            exact hI.revealed_mem c hc
          simp [SentenceManager.isLetterInSentence, halpha, hne,
            upChar_of_upper hup, hmem]
        rw [hfil, Finset.image_congr (fun c hc => hfix c hc), Finset.image_id']
      · exact hnorm.symm
    · rfl
    · exact hdate.symm
    · rfl
  exact ⟨by rw [hmain], by rw [hmain], by rw [hmain]⟩

theorem game_state_roundtrip_witness :
    (GameEngine.restoreGameState (fun _ => some (String.toList "Hello World!"))
        (GameEngine.getGameState
          (GameEngine.runGuesses [['H'], ['Z']]
            (GameEngine.initGame (fun _ => some (String.toList "Hello World!"))
              "2024-01-01" GameEngine.new).1))
        GameEngine.new).2 = .ok ()
    ∧ GameEngine.getGameState
        (GameEngine.restoreGameState (fun _ => some (String.toList "Hello World!"))
          (GameEngine.getGameState
            (GameEngine.runGuesses [['H'], ['Z']]
              (GameEngine.initGame (fun _ => some (String.toList "Hello World!"))
                "2024-01-01" GameEngine.new).1))
          GameEngine.new).1
      = GameEngine.getGameState
          (GameEngine.runGuesses [['H'], ['Z']]
            (GameEngine.initGame (fun _ => some (String.toList "Hello World!"))
              "2024-01-01" GameEngine.new).1)
    ∧ GameEngine.getDisplaySentence
        (GameEngine.restoreGameState (fun _ => some (String.toList "Hello World!"))
          (GameEngine.getGameState
            (GameEngine.runGuesses [['H'], ['Z']]
              (GameEngine.initGame (fun _ => some (String.toList "Hello World!"))
                "2024-01-01" GameEngine.new).1))
          GameEngine.new).1
      = GameEngine.getDisplaySentence
          (GameEngine.runGuesses [['H'], ['Z']]
            (GameEngine.initGame (fun _ => some (String.toList "Hello World!"))
              "2024-01-01" GameEngine.new).1) :=
  game_state_roundtrip (fun _ => some (String.toList "Hello World!"))
    "2024-01-01" GameEngine.new [['H'], ['Z']] (String.toList "Hello World!") rfl
